import Mathlib

/-!
Shallow embedding of the entity-matching, scoring and caching engine of the
`soundchecks` repository.

Sources embedded here:
* `src/lib/services/matchers/levenshtein.ts`  (similarity engine)
* `src/lib/services/matchers/text-normalizer.ts` (second similarity variant)
* `src/lib/services/matchers/confidence-scorer.ts`
* `src/lib/services/entity-matcher.ts`
* `src/lib/services/cache/lru-cache.ts` (provided as `src/unnamed/part_016`)
* `src/lib/services/cache/matcher-cache.ts`
* `src/lib/services/cache/cached-entity-matcher.ts`

Modelling conventions:
* JS `number` is modelled by `ℚ` (configuration weights, thresholds) or by
  `ℤ`/`ℕ` where the source only ever produces integers (scores, sizes,
  timestamps in milliseconds).
* `Math.round x` is modelled as `⌊x + 1/2⌋` (round half toward +∞), which is
  exactly JS semantics on finite numbers.
* JS strings are Lean `String`s; the operations used by the sources
  (`toLowerCase`, `trim`, the regexes of `normalizeString`) are modelled
  char-wise below.  Case mapping is the ASCII fragment (`Char.toLower`),
  which agrees with JS `toLowerCase` on ASCII input.
* Wall-clock time (`Date.now()`) is threaded through the cache operations as
  an explicit `now : ℤ` parameter; timers (`setInterval`/`setTimeout`) and
  the response-time metrics built on `performance.now()` are outside the
  model and are noted at their use sites.
-/

attribute [local semireducible] Rat.mul Rat.add Rat.sub Rat.inv Rat.ofScientific

/-- JS `Math.round`: round half up, `Math.round x = ⌊x + 0.5⌋`. -/
def jsRound (x : ℚ) : ℤ := ⌊x + 1/2⌋

/-- JS `String.prototype.trim` on the character list of a string. -/
def jsTrimList (l : List Char) : List Char :=
  ((l.dropWhile Char.isWhitespace).reverse.dropWhile Char.isWhitespace).reverse

/-- JS `String.prototype.trim`. -/
def jsTrim (s : String) : String := ⟨jsTrimList s.data⟩

/-- JS `String.prototype.toLowerCase` (ASCII fragment). -/
def jsToLowerStr (s : String) : String := ⟨s.data.map Char.toLower⟩

/-- Merge consecutive spaces into one (helper for the `/\s+/g → ' '` regex). -/
def squeezeSpaces : List Char → List Char
  | [] => []
  | [c] => [c]
  | c₁ :: c₂ :: rest =>
    if c₁ = ' ' ∧ c₂ = ' ' then squeezeSpaces (c₂ :: rest)
    else c₁ :: squeezeSpaces (c₂ :: rest)

/-- JS `.replace(/\s+/g, ' ')`: every maximal whitespace run becomes one space. -/
def collapseWhitespace (l : List Char) : List Char :=
  squeezeSpaces (l.map fun c => if c.isWhitespace then ' ' else c)

namespace Levenshtein

/-- The character class `[.,;:!?'"()-]` of `normalizeString`
    (`Char.ofNat 39` is the apostrophe, `Char.ofNat 34` the double quote). -/
def punctuationChars : List Char :=
  ['.', ',', ';', ':', '!', '?', Char.ofNat 39, Char.ofNat 34, '(', ')', '-']

/-- JS `.replace(/[.,;:!?'"()-]/g, '')`. -/
def removePunct (l : List Char) : List Char :=
  l.filter fun c => ¬ punctuationChars.contains c

/-- One alternative of the anchored regex `^(the|a|an)\s+`: if `l` starts with
    `word` followed by at least one whitespace char, strip the word and the
    whole (greedy `\s+`) whitespace run. -/
def stripLeadingWord (word : List Char) (l : List Char) : Option (List Char) :=
  if word.isPrefixOf l then
    match l.drop word.length with
    | c :: rest => if c.isWhitespace then some ((c :: rest).dropWhile Char.isWhitespace) else none
    | [] => none
  else none

/-- JS `.replace(/^(the|a|an)\s+/i, '')` on already-lowercased text: the regex
    alternatives are tried in order (with backtracking, `a` fails before `an`
    exactly when no whitespace follows the `a`). -/
def stripLeadingArticle (l : List Char) : List Char :=
  (((stripLeadingWord ['t', 'h', 'e'] l).orElse
    fun _ => stripLeadingWord ['a'] l).orElse
    fun _ => stripLeadingWord ['a', 'n'] l).getD l

/-- One alternative of `\s+(the|a|an)$`, working on the reversed list:
    `wordRev` is the reversed article.  On success the article and the whole
    preceding (greedy `\s+`) whitespace run are stripped. -/
def stripTrailingWordRev (wordRev : List Char) (r : List Char) : Option (List Char) :=
  if wordRev.isPrefixOf r then
    match r.drop wordRev.length with
    | c :: rest => if c.isWhitespace then some ((c :: rest).dropWhile Char.isWhitespace) else none
    | [] => none
  else none

/-- JS `.replace(/\s+(the|a|an)$/i, '')` on already-lowercased text.  The three
    alternatives require distinct final characters (`e`/`a`/`n`), so at most
    one can match; trying them in source order is faithful. -/
def stripTrailingArticle (l : List Char) : List Char :=
  ((((stripTrailingWordRev ['e', 'h', 't'] l.reverse).orElse
    fun _ => stripTrailingWordRev ['a'] l.reverse).orElse
    fun _ => stripTrailingWordRev ['n', 'a'] l.reverse).getD l.reverse).reverse

/-- `normalizeString` of `levenshtein.ts`: lowercase, trim, collapse
    whitespace, strip punctuation, strip a leading and a trailing article,
    final trim. -/
def normalizeString (str : String) : String :=
  ⟨jsTrimList (stripTrailingArticle (stripLeadingArticle (removePunct
    (collapseWhitespace (jsTrimList (str.data.map Char.toLower))))))⟩

/-- Character-level Levenshtein distance (unit-cost insert/delete/substitute),
    the semantics of the `fast-levenshtein` package used by the source. -/
def levDist : List Char → List Char → ℕ
  | [], ys => ys.length
  | x :: xs, [] => (x :: xs).length
  | x :: xs, y :: ys =>
    if x = y then levDist xs ys
    else 1 + min (levDist xs ys) (min (levDist (x :: xs) ys) (levDist xs (y :: ys)))
  termination_by xs ys => xs.length + ys.length
  decreasing_by all_goals simp_arith

/-- `calculateSimilarity` of `levenshtein.ts`.  Note the JS falsiness guard
    `if (!str1 || !str2) return 0` fires for the empty string *before* the
    `str1 === str2` short-circuit. -/
def calculateSimilarity (str1 str2 : String) : ℤ :=
  if str1 = "" ∨ str2 = "" then 0
  else if str1 = str2 then 100
  else
    let n1 := normalizeString str1
    let n2 := normalizeString str2
    if n1 = n2 then 100
    else
      let distance := levDist n1.data n2.data
      let maxLength := max n1.data.length n2.data.length
      max 0 (jsRound (((maxLength : ℚ) - (distance : ℚ)) / (maxLength : ℚ) * 100))

/-- `isExactMatch` of `levenshtein.ts`. -/
def isExactMatch (str1 str2 : String) : Bool :=
  if str1 = "" ∨ str2 = "" then false
  else decide (normalizeString str1 = normalizeString str2)

end Levenshtein

namespace TextNormalizer

/-!
`text-normalizer.ts`.  Its `convertUnicode` and `removeAccents` steps rewrite
only non-ASCII characters (the `UNICODE_MAP` table and NFD decomposition);
on the ASCII fragment modelled here both are the identity.
-/

/-- `convertUnicode` of `text-normalizer.ts`: replaces the non-ASCII keys of
    `UNICODE_MAP` by ASCII equivalents; identity on ASCII text. -/
def convertUnicode (l : List Char) : List Char := l

/-- `removeAccents` of `text-normalizer.ts`: NFD decomposition, stripping of
    combining marks, and the `UNICODE_MAP` pass; identity on ASCII text. -/
def removeAccents (l : List Char) : List Char := l

/-- JS `\w` character class: `[A-Za-z0-9_]`. -/
def wordChar (c : Char) : Bool := c.isAlphanum ∨ c = '_'

/-- `removePunctuation` of `text-normalizer.ts`:
    `replace(/[^\w\s'-]/g, ' ')`, then `replace(/[-']+/g, ' ')`, then
    `replace(/\s+/g, ' ')`.  The second step maps every hyphen/apostrophe run
    to a space; since the third step collapses whitespace runs anyway, the
    second step is modelled char-wise followed by the collapse. -/
def removePunctuation (l : List Char) : List Char :=
  collapseWhitespace
    ((l.map fun c =>
        if ¬ (wordChar c ∨ c.isWhitespace ∨ c = Char.ofNat 39 ∨ c = '-') then ' ' else c).map
      fun c => if c = '-' ∨ c = Char.ofNat 39 then ' ' else c)

/-- `normalizeWhitespace` of `text-normalizer.ts`: trim and collapse runs. -/
def normalizeWhitespaceL (l : List Char) : List Char :=
  collapseWhitespace (jsTrimList l)

/-- JS `String.prototype.split(/\s+/)`: tokens between maximal whitespace
    runs; a leading (resp. trailing) whitespace run yields a leading (resp.
    trailing) empty token, as in JS. -/
def splitWSAux : List Char → List Char → List (List Char)
  | [], acc => [acc.reverse]
  | c :: rest, acc =>
    if c.isWhitespace then acc.reverse :: splitWSAux (rest.dropWhile Char.isWhitespace) []
    else splitWSAux rest (c :: acc)
  termination_by l _ => l.length
  decreasing_by
    · exact Nat.lt_succ_of_le (List.dropWhile_sublist _).length_le
    · simp

/-- The `ARTICLES` set of `text-normalizer.ts`. -/
def ARTICLES : List (List Char) := [['a'], ['a', 'n'], ['t', 'h', 'e']]

/-- `removeArticles` of `text-normalizer.ts`: split on whitespace and, when
    more than one word remains, drop the words whose lowercasing is in
    `ARTICLES`, re-joining with single spaces. -/
def removeArticles (l : List Char) : List Char :=
  let words := splitWSAux l []
  if words.length > 1 then
    List.intercalate [' '] (words.filter fun w => ¬ ARTICLES.contains (w.map Char.toLower))
  else l

/-- `normalizeForMatching` of `text-normalizer.ts`: the `normalizeText`
    pipeline with the default matching configuration (`removeStopWords`
    disabled, every other step enabled), ending in the final whitespace
    normalization of `normalizeText`. -/
def normalizeForMatching (text : String) : String :=
  ⟨normalizeWhitespaceL (removeArticles (normalizeWhitespaceL (removePunctuation
    ((removeAccents (convertUnicode text.data)).map Char.toLower))))⟩

/-- `calculateSimilarity` of `text-normalizer.ts` (the second similarity
    function of the repository).  Its private `levenshteinDistance` is the
    standard unit-cost DP edit distance, shared here as `Levenshtein.levDist`. -/
def calculateSimilarity (text1 text2 : String) : ℤ :=
  let n1 := normalizeForMatching text1
  let n2 := normalizeForMatching text2
  if n1 = n2 then 100
  else if n1.data.length = 0 ∨ n2.data.length = 0 then 0
  else
    let maxLength := max n1.data.length n2.data.length
    let distance := Levenshtein.levDist n1.data n2.data
    jsRound ((1 - (distance : ℚ) / (maxLength : ℚ)) * 100)

end TextNormalizer

/-! ## `matcher.types.ts` -/

/-- `MatchConfig` of `matcher.types.ts`.  `maxResults` is a positive integer
    per the data model; thresholds and weights are JS numbers, modelled
    exactly as rationals. -/
structure MatchConfig where
  minSimilarity : ℚ
  minConfidence : ℚ
  maxResults : ℕ
  exactMatchWeight : ℚ
  fuzzyMatchWeight : ℚ
  aliasMatchWeight : ℚ
deriving DecidableEq

/-- `ConfidenceBreakdown` of `matcher.types.ts`; all four scores are integers
    (produced by `Math.round` / integer literals). -/
structure ConfidenceBreakdown where
  exactMatch : ℤ
  fuzzyMatch : ℤ
  aliasMatch : ℤ
  weighted : ℤ
deriving DecidableEq

/-- `DEFAULT_MATCH_CONFIG` of `matcher.types.ts`. -/
def DEFAULT_MATCH_CONFIG : MatchConfig :=
  { minSimilarity := 60, minConfidence := 70, maxResults := 10,
    exactMatchWeight := 1, fuzzyMatchWeight := 0.8, aliasMatchWeight := 0.9 }

/-- `MatchableEntity` artists: `{ id, name, aliases?: string[] }`.  An absent
    `aliases` field behaves exactly like `[]` in every consumer
    (`aliases && aliases.length > 0`, default parameter `= []`), so it is
    modelled as the empty list. -/
structure MatchableArtist where
  id : String
  name : String
  aliases : List String
deriving DecidableEq

/-- `MatchableVenue` of `matcher.types.ts`: adds the mandatory `city`. -/
structure MatchableVenue where
  id : String
  name : String
  city : String
  aliases : List String
deriving DecidableEq

/-- `ArtistMatch` of `matcher.types.ts`. -/
structure ArtistMatch where
  id : String
  name : String
  confidence : ℤ
  breakdown : ConfidenceBreakdown
deriving DecidableEq

/-- `VenueMatch` of `matcher.types.ts`. -/
structure VenueMatch where
  id : String
  name : String
  city : String
  confidence : ℤ
  breakdown : ConfidenceBreakdown
deriving DecidableEq

/-! ## `confidence-scorer.ts` -/

/-- The alias loop of `calculateConfidence`: starting from `bestAliasScore = 0`,
    an exact alias match sets the score to 100 and `break`s; otherwise the
    running maximum of the similarities is kept. -/
def bestAliasLoop (query : String) (best : ℤ) : List String → ℤ
  | [] => best
  | al :: rest =>
    if Levenshtein.isExactMatch query al then 100
    else bestAliasLoop query (max best (Levenshtein.calculateSimilarity query al)) rest

/-- `calculateWeightedScore` of `confidence-scorer.ts`: the single
    highest-priority nonzero sub-score (exact, then alias, then fuzzy) is
    multiplied by its weight; the result is rounded and clamped to [0, 100]
    (`Math.min(100, Math.max(0, Math.round(weightedScore)))`). -/
def calculateWeightedScore (breakdown : ConfidenceBreakdown) (config : MatchConfig) : ℤ :=
  let pair : ℚ × ℚ :=
    if 0 < breakdown.exactMatch then ((breakdown.exactMatch : ℚ), config.exactMatchWeight)
    else if 0 < breakdown.aliasMatch then ((breakdown.aliasMatch : ℚ), config.aliasMatchWeight)
    else ((breakdown.fuzzyMatch : ℚ), config.fuzzyMatchWeight)
  min 100 (max 0 (jsRound (pair.1 * pair.2)))

/-- `calculateConfidence` of `confidence-scorer.ts`. -/
def calculateConfidence (query targetName : String) (aliases : List String)
    (config : MatchConfig) : ConfidenceBreakdown :=
  if query = "" ∨ targetName = "" then ⟨0, 0, 0, 0⟩
  else
    let exactScore : ℤ := if Levenshtein.isExactMatch query targetName then 100 else 0
    let fuzzyScore : ℤ := Levenshtein.calculateSimilarity query targetName
    let aliasScore : ℤ := if aliases.length > 0 then bestAliasLoop query 0 aliases else 0
    let pre : ConfidenceBreakdown := ⟨exactScore, fuzzyScore, aliasScore, 0⟩
    { pre with weighted := calculateWeightedScore pre config }

/-- `meetsConfidenceThreshold` of `confidence-scorer.ts`. -/
def meetsConfidenceThreshold (breakdown : ConfidenceBreakdown) (config : MatchConfig) : Bool :=
  decide (config.minConfidence ≤ (breakdown.weighted : ℚ))

/-- The record produced by `scoreEntities`'s `.map`: the TS spread
    `{ ...entity, confidence }` is modelled as the entity paired with its
    breakdown. -/
structure Scored (T : Type) where
  entity : T
  confidence : ConfidenceBreakdown
deriving DecidableEq

/-- The descending-by-`weighted` comparison of `scoreEntities`'s
    `.sort((a, b) => b.confidence.weighted - a.confidence.weighted)`. -/
def weightGE {T : Type} (a b : Scored T) : Prop :=
  b.confidence.weighted ≤ a.confidence.weighted

instance {T : Type} : DecidableRel (weightGE (T := T)) :=
  fun a b => Int.decLe b.confidence.weighted a.confidence.weighted

instance {T : Type} : IsTotal (Scored T) weightGE :=
  ⟨fun a b => le_total b.confidence.weighted a.confidence.weighted⟩

instance {T : Type} : IsTrans (Scored T) weightGE :=
  ⟨fun _ _ _ h₁ h₂ => le_trans h₂ h₁⟩

/-- The `.map` stage of `scoreEntities`. -/
def scoredCandidates {T : Type} (name : T → String) (aliases : T → List String)
    (query : String) (entities : List T) (config : MatchConfig) : List (Scored T) :=
  entities.map fun e => ⟨e, calculateConfidence query (name e) (aliases e) config⟩

/-- The `.filter` stage of `scoreEntities`. -/
def passingScored {T : Type} (name : T → String) (aliases : T → List String)
    (query : String) (entities : List T) (config : MatchConfig) : List (Scored T) :=
  (scoredCandidates name aliases query entities config).filter
    fun s => meetsConfidenceThreshold s.confidence config

/-- `scoreEntities` of `confidence-scorer.ts`: guard on falsy query / empty
    list, then map, filter, stable descending sort, and `.slice(0, maxResults)`.
    JS `Array.prototype.sort` is stable, so it is modelled by the stable
    `List.insertionSort` (any two stable sorts with the same comparator agree). -/
def scoreEntities {T : Type} (name : T → String) (aliases : T → List String)
    (query : String) (entities : List T) (config : MatchConfig) : List (Scored T) :=
  if query = "" ∨ entities.isEmpty then []
  else
    ((passingScored name aliases query entities config).insertionSort weightGE).take
      config.maxResults

/-! ## `entity-matcher.ts` -/

/-- JS `String.prototype.includes`: substring occurrence. -/
def jsIncludes (s sub : String) : Bool := decide (sub.data <:+: s.data)

namespace EntityMatcher

/-!
`EntityMatcher` holds only its `MatchConfig` as state; its methods are
modelled as functions taking the configuration.  The `performance.now()`
latency guard only logs and is outside the model.
-/

/-- `EntityMatcher.matchArtists`. -/
def matchArtists (config : MatchConfig) (query : String)
    (artists : List MatchableArtist) : List ArtistMatch :=
  if jsTrim query = "" ∨ artists = [] then []
  else
    (scoreEntities MatchableArtist.name MatchableArtist.aliases (jsTrim query) artists
      config).map fun s => ⟨s.entity.id, s.entity.name, s.confidence.weighted, s.confidence⟩

/-- `EntityMatcher.matchVenues`: optional case-insensitive substring
    pre-filter on `city` (applied when `cityFilter?.trim()` is truthy),
    then scoring. -/
def matchVenues (config : MatchConfig) (query : String) (venues : List MatchableVenue)
    (cityFilter : Option String) : List VenueMatch :=
  if jsTrim query = "" ∨ venues = [] then []
  else
    let filteredVenues :=
      match cityFilter with
      | some cf =>
        if jsTrim cf ≠ "" then
          venues.filter fun v => jsIncludes (jsToLowerStr v.city) (jsToLowerStr cf)
        else venues
      | none => venues
    (scoreEntities MatchableVenue.name MatchableVenue.aliases (jsTrim query) filteredVenues
      config).map fun s =>
        ⟨s.entity.id, s.entity.name, s.entity.city, s.confidence.weighted, s.confidence⟩

end EntityMatcher

/-! ## `lru-cache.ts` (source file `src/unnamed/part_016`) -/

/-- JS truthiness of a cache key.  The generic cache uses string keys, for
    which only `""` is falsy; the matcher cache's composite keys are always
    nonempty strings (`"artist:..."` / `"venue:..."`), modelled by key types
    whose `falsy` is constantly `false`. -/
class JsKey (κ : Type) where
  falsy : κ → Bool

instance : JsKey String := ⟨fun s => decide (s = "")⟩

/-- `CacheEntry` of `lru-cache.ts`; `timestamp`/`expiresAt` are `Date.now()`
    milliseconds, `expiresAt = none` models the `null` of "no expiry". -/
structure CacheEntry (T : Type) where
  value : T
  timestamp : ℤ
  expiresAt : Option ℤ
  accessCount : ℕ
deriving DecidableEq

/-- `CacheMetrics` of `lru-cache.ts`. -/
structure CacheMetrics where
  hits : ℕ
  misses : ℕ
  evictions : ℕ
  size : ℕ
  hitRate : ℚ
deriving DecidableEq

/-- `LRUCacheConfig` of `lru-cache.ts`. -/
structure LRUCacheConfig where
  maxSize : ℕ
  defaultTTL : ℤ
  cleanupInterval : ℤ
  enableMetrics : Bool
deriving DecidableEq

/-- `DEFAULT_LRU_CONFIG` of `lru-cache.ts`. -/
def DEFAULT_LRU_CONFIG : LRUCacheConfig :=
  { maxSize := 1000, defaultTTL := 300000, cleanupInterval := 60000, enableMetrics := true }

/-- JS `Map.prototype.get` on the insertion-ordered association list. -/
def mapGet {κ T : Type} [DecidableEq κ] (l : List (κ × CacheEntry T)) (key : κ) :
    Option (CacheEntry T) :=
  (l.find? fun p => decide (p.1 = key)).map Prod.snd

/-- JS `Map.prototype.has`. -/
def mapContains {κ T : Type} [DecidableEq κ] (l : List (κ × CacheEntry T)) (key : κ) : Bool :=
  (mapGet l key).isSome

/-- JS `Map.prototype.set`: updating an existing key keeps its insertion
    position; a new key is appended. -/
def mapSet {κ T : Type} [DecidableEq κ] (l : List (κ × CacheEntry T)) (key : κ)
    (e : CacheEntry T) : List (κ × CacheEntry T) :=
  if mapContains l key then l.map fun p => if p.1 = key then (key, e) else p
  else l ++ [(key, e)]

/-- JS `Map.prototype.delete`. -/
def mapDelete {κ T : Type} [DecidableEq κ] (l : List (κ × CacheEntry T)) (key : κ) :
    List (κ × CacheEntry T) :=
  l.filter fun p => decide (p.1 ≠ key)

/-- JS `Set.prototype.delete` on the insertion-ordered key list `accessOrder`. -/
def setDelete {κ : Type} [DecidableEq κ] (l : List κ) (key : κ) : List κ :=
  l.filter fun k => decide (k ≠ key)

/-- JS `Set.prototype.add`: no-op when present, else appended at the end. -/
def setAdd {κ : Type} [DecidableEq κ] (l : List κ) (key : κ) : List κ :=
  if key ∈ l then l else l ++ [key]

/-- The `LRUCache` state: the `Map` (insertion-ordered association list), the
    `accessOrder` `Set` (insertion-ordered key list, LRU first), configuration
    and metrics.  The spin-lock `lock` set and the `cleanupTimer` are
    concurrency/timer artifacts outside this sequential model. -/
structure LRUCache (κ : Type) (T : Type) where
  cache : List (κ × CacheEntry T)
  accessOrder : List κ
  config : LRUCacheConfig
  metrics : CacheMetrics
deriving DecidableEq

namespace LRUCache

variable {κ T : Type} [DecidableEq κ] [JsKey κ]

/-- The `LRUCache` constructor: empty map, empty access order, zeroed
    metrics.  (`startCleanupTimer` only schedules the background sweep and is
    outside the model.) -/
def init (config : LRUCacheConfig) : LRUCache κ T :=
  { cache := [], accessOrder := [], config := config,
    metrics := { hits := 0, misses := 0, evictions := 0, size := 0, hitRate := 0 } }

/-- `isExpired`: `entry.expiresAt !== null && Date.now() > entry.expiresAt`. -/
def isExpired (now : ℤ) (entry : CacheEntry T) : Bool :=
  match entry.expiresAt with
  | none => false
  | some e => decide (now > e)

/-- `updateHitRate`. -/
def updateHitRate (m : CacheMetrics) : CacheMetrics :=
  let total := m.hits + m.misses
  { m with hitRate := if total > 0 then ((m.hits : ℚ) / (total : ℚ)) * 100 else 0 }

/-- `recordHit` (guarded by `enableMetrics`). -/
def recordHit (c : LRUCache κ T) : LRUCache κ T :=
  if c.config.enableMetrics then
    { c with metrics := updateHitRate { c.metrics with hits := c.metrics.hits + 1 } }
  else c

/-- `recordMiss` (guarded by `enableMetrics`). -/
def recordMiss (c : LRUCache κ T) : LRUCache κ T :=
  if c.config.enableMetrics then
    { c with metrics := updateHitRate { c.metrics with misses := c.metrics.misses + 1 } }
  else c

/-- `updateSize`. -/
def updateSize (c : LRUCache κ T) : LRUCache κ T :=
  { c with metrics := { c.metrics with size := c.cache.length } }

/-- `evictLRU`: takes the first key of `accessOrder`
    (`this.accessOrder.values().next().value`) and evicts it — but only under
    the JS truthiness guard `if (lruKey)`, which is also false for the empty
    string, not just for `undefined`. -/
def evictLRU (c : LRUCache κ T) : LRUCache κ T :=
  match c.accessOrder.head? with
  | none => c
  | some lruKey =>
    if JsKey.falsy lruKey then c
    else
      updateSize
        { c with cache := mapDelete c.cache lruKey,
                 accessOrder := setDelete c.accessOrder lruKey,
                 metrics := { c.metrics with evictions := c.metrics.evictions + 1 } }

/-- `get`: miss on absent key; expired entries are evicted on read and count
    as a miss; on a hit the key moves to the most-recently-used position and
    the entry's access counter is bumped.  Returns the JS return value paired
    with the post-state. -/
def get (c : LRUCache κ T) (now : ℤ) (key : κ) : Option T × LRUCache κ T :=
  match mapGet c.cache key with
  | none => (none, recordMiss c)
  | some entry =>
    if isExpired now entry then
      (none, recordMiss (updateSize
        { c with cache := mapDelete c.cache key, accessOrder := setDelete c.accessOrder key }))
    else
      (some entry.value, recordHit
        { c with cache := mapSet c.cache key { entry with accessCount := entry.accessCount + 1 },
                 accessOrder := setAdd (setDelete c.accessOrder key) key })

/-- `set`: `effectiveTTL = ttl ?? defaultTTL`; a positive TTL sets
    `expiresAt = now + effectiveTTL`, otherwise (TTL `0` or negative) the
    entry never expires.  An existing key is updated in place and moved to
    most-recently-used; a new key first triggers `evictLRU` when
    `cache.size >= maxSize`. -/
def set (c : LRUCache κ T) (now : ℤ) (key : κ) (value : T) (ttl : Option ℤ) : LRUCache κ T :=
  let effectiveTTL := ttl.getD c.config.defaultTTL
  let expiresAt : Option ℤ := if effectiveTTL > 0 then some (now + effectiveTTL) else none
  let entry : CacheEntry T :=
    { value := value, timestamp := now, expiresAt := expiresAt, accessCount := 1 }
  if mapContains c.cache key then
    { c with cache := mapSet c.cache key entry,
             accessOrder := setAdd (setDelete c.accessOrder key) key }
  else
    let c1 := if c.cache.length ≥ c.config.maxSize then evictLRU c else c
    updateSize
      { c1 with cache := mapSet c1.cache key entry, accessOrder := setAdd c1.accessOrder key }

/-- `has`: like `get` it evicts an expired entry, but it does not touch the
    access order or the hit/miss counters. -/
def has (c : LRUCache κ T) (now : ℤ) (key : κ) : Bool × LRUCache κ T :=
  match mapGet c.cache key with
  | none => (false, c)
  | some entry =>
    if isExpired now entry then
      (false, updateSize
        { c with cache := mapDelete c.cache key, accessOrder := setDelete c.accessOrder key })
    else (true, c)

end LRUCache

/-! ## `matcher-cache.ts` -/

/-- `MatcherCacheConfig` (the `LRUCacheConfig` part flattened in). -/
structure MatcherCacheConfig where
  maxSize : ℕ
  defaultTTL : ℤ
  cleanupInterval : ℤ
  enableMetrics : Bool
  artistCacheTTL : ℤ
  venueCacheTTL : ℤ
  aliasCacheTTL : ℤ
  enableWarming : Bool
  warmingQueries : List String
deriving DecidableEq

/-- `DEFAULT_MATCHER_CACHE_CONFIG` of `matcher-cache.ts`. -/
def DEFAULT_MATCHER_CACHE_CONFIG : MatcherCacheConfig :=
  { maxSize := 5000, defaultTTL := 300000, cleanupInterval := 120000, enableMetrics := true,
    artistCacheTTL := 600000, venueCacheTTL := 300000, aliasCacheTTL := 900000,
    enableWarming := true,
    warmingQueries :=
      ["the", "a", "and", "of", "to", "in", "for", "with", "on", "at",
       "taylor swift", "the beatles", "rolling stones", "pink floyd",
       "madison square garden", "hollywood bowl", "red rocks"] }

/-- The artist cache key `artist:${query.toLowerCase().trim()}:${configHash}`,
    modelled structurally: the 8-character base64 `hashConfig` is a function
    of the configuration alone (it can collide for distinct configurations,
    which no property here depends on), so the key is determined by the
    lowered/trimmed query together with the configuration. -/
structure ArtistCacheKey where
  query : String
  config : MatchConfig
deriving DecidableEq

instance : JsKey ArtistCacheKey := ⟨fun _ => false⟩

/-- The venue cache key
    `venue:${query.toLowerCase().trim()}${city}:${configHash}` where `city`
    is `:${cityFilter.toLowerCase().trim()}` when `cityFilter` is truthy and
    empty otherwise, modelled structurally like `ArtistCacheKey`. -/
structure VenueCacheKey where
  query : String
  city : Option String
  config : MatchConfig
deriving DecidableEq

instance : JsKey VenueCacheKey := ⟨fun _ => false⟩

/-- The `MatcherCache` state: three independent LRU+TTL partitions.  The
    response-time metrics (`performance.now()`-based) and the warmup
    scheduling (`scheduleWarmup` only logs after a timeout) are outside the
    model. -/
structure MatcherCache where
  artistCache : LRUCache ArtistCacheKey (List ArtistMatch)
  venueCache : LRUCache VenueCacheKey (List VenueMatch)
  aliasCache : LRUCache String (List String)
  config : MatcherCacheConfig
deriving DecidableEq

namespace MatcherCache

/-- The `MatcherCache` constructor: the three partitions get 50% / 40% / 10%
    of `maxSize` (`Math.floor`) and their own default TTLs. -/
def init (config : MatcherCacheConfig) : MatcherCache :=
  { artistCache := LRUCache.init
      { maxSize := (⌊(config.maxSize : ℚ) * 0.5⌋).toNat, defaultTTL := config.artistCacheTTL,
        cleanupInterval := config.cleanupInterval, enableMetrics := config.enableMetrics },
    venueCache := LRUCache.init
      { maxSize := (⌊(config.maxSize : ℚ) * 0.4⌋).toNat, defaultTTL := config.venueCacheTTL,
        cleanupInterval := config.cleanupInterval, enableMetrics := config.enableMetrics },
    aliasCache := LRUCache.init
      { maxSize := (⌊(config.maxSize : ℚ) * 0.1⌋).toNat, defaultTTL := config.aliasCacheTTL,
        cleanupInterval := config.cleanupInterval, enableMetrics := config.enableMetrics },
    config := config }

/-- `generateArtistCacheKey`. -/
def generateArtistCacheKey (query : String) (config : MatchConfig) : ArtistCacheKey :=
  ⟨jsTrim (jsToLowerStr query), config⟩

/-- `generateVenueCacheKey`; the `cityFilter ? ... : ''` truthiness check
    treats an empty-string filter like an absent one. -/
def generateVenueCacheKey (query : String) (config : MatchConfig)
    (cityFilter : Option String) : VenueCacheKey :=
  ⟨jsTrim (jsToLowerStr query),
   (match cityFilter with
    | some cf => if cf ≠ "" then some (jsTrim (jsToLowerStr cf)) else none
    | none => none),
   config⟩

/-- `getArtistMatches` (the `recordResponse` wall-clock bookkeeping is outside
    the model). -/
def getArtistMatches (mc : MatcherCache) (now : ℤ) (query : String)
    (matchConfig : MatchConfig) : Option (List ArtistMatch) × MatcherCache :=
  let r := mc.artistCache.get now (generateArtistCacheKey query matchConfig)
  (r.1, { mc with artistCache := r.2 })

/-- `setArtistMatches`: stores under the composite key with the partition's
    default TTL (no per-entry TTL is passed). -/
def setArtistMatches (mc : MatcherCache) (now : ℤ) (query : String)
    (matchConfig : MatchConfig) (matchList : List ArtistMatch) : MatcherCache :=
  { mc with artistCache :=
      mc.artistCache.set now (generateArtistCacheKey query matchConfig) matchList none }

/-- `getVenueMatches`. -/
def getVenueMatches (mc : MatcherCache) (now : ℤ) (query : String)
    (matchConfig : MatchConfig) (cityFilter : Option String) :
    Option (List VenueMatch) × MatcherCache :=
  let r := mc.venueCache.get now (generateVenueCacheKey query matchConfig cityFilter)
  (r.1, { mc with venueCache := r.2 })

/-- `setVenueMatches`. -/
def setVenueMatches (mc : MatcherCache) (now : ℤ) (query : String)
    (matchConfig : MatchConfig) (matchList : List VenueMatch)
    (cityFilter : Option String) : MatcherCache :=
  { mc with venueCache :=
      mc.venueCache.set now (generateVenueCacheKey query matchConfig cityFilter) matchList none }

end MatcherCache

/-! ## `cached-entity-matcher.ts` -/

/-- `CachedEntityMatcher` state: the inherited `EntityMatcher` configuration
    plus the `MatcherCache`.  The TS constructor merges partial configs with
    the defaults; the model takes the merged configurations. -/
structure CachedEntityMatcher where
  config : MatchConfig
  cache : MatcherCache
deriving DecidableEq

namespace CachedEntityMatcher

/-- The `CachedEntityMatcher` constructor. -/
def init (matchConfig : MatchConfig) (cacheConfig : MatcherCacheConfig) :
    CachedEntityMatcher :=
  ⟨matchConfig, MatcherCache.init cacheConfig⟩

/-- `CachedEntityMatcher.matchArtists`: same guard as the uncached matcher,
    then cache-first lookup, falling back to `super.matchArtists` and
    backfilling the cache on a miss. -/
def matchArtists (s : CachedEntityMatcher) (now : ℤ) (query : String)
    (artists : List MatchableArtist) : List ArtistMatch × CachedEntityMatcher :=
  if jsTrim query = "" ∨ artists = [] then ([], s)
  else
    let looked := s.cache.getArtistMatches now query s.config
    match looked.1 with
    | some cachedResult => (cachedResult, { s with cache := looked.2 })
    | none =>
      let result := EntityMatcher.matchArtists s.config query artists
      (result, { s with cache := looked.2.setArtistMatches now query s.config result })

/-- `CachedEntityMatcher.matchVenues`. -/
def matchVenues (s : CachedEntityMatcher) (now : ℤ) (query : String)
    (venues : List MatchableVenue) (cityFilter : Option String) :
    List VenueMatch × CachedEntityMatcher :=
  if jsTrim query = "" ∨ venues = [] then ([], s)
  else
    let looked := s.cache.getVenueMatches now query s.config cityFilter
    match looked.1 with
    | some cachedResult => (cachedResult, { s with cache := looked.2 })
    | none =>
      let result := EntityMatcher.matchVenues s.config query venues cityFilter
      (result, { s with cache := looked.2.setVenueMatches now query s.config result cityFilter })

end CachedEntityMatcher

/-! ## Supporting lemmas -/

theorem jsRound_mono {x y : ℚ} (h : x ≤ y) : jsRound x ≤ jsRound y :=
  Int.floor_le_floor (by linarith)

theorem jsRound_zero : jsRound 0 = 0 :=
  Int.floor_eq_iff.mpr (by norm_num)

theorem jsRound_hundred : jsRound 100 = 100 :=
  Int.floor_eq_iff.mpr (by norm_num)

/-- Clamping after JS rounding agrees with rounding after clamping: the
    published invariant `round(clamp(x, 0, 100))` and the implemented
    `Math.min(100, Math.max(0, Math.round(x)))` coincide. -/
theorem clamp_jsRound_comm (x : ℚ) :
    min 100 (max 0 (jsRound x)) = jsRound (min 100 (max 0 x)) := by
  rcases le_total x 0 with h0 | h0
  · have hx : jsRound x ≤ 0 := jsRound_zero ▸ jsRound_mono h0
    have hmax : max (0 : ℚ) x = 0 := max_eq_left h0
    rw [hmax]
    have : min (100 : ℚ) 0 = 0 := by norm_num
    rw [this, jsRound_zero]
    omega
  · rcases le_total x 100 with h1 | h1
    · have hl : 0 ≤ jsRound x := jsRound_zero ▸ jsRound_mono h0
      have hu : jsRound x ≤ 100 := jsRound_hundred ▸ jsRound_mono h1
      have hmax : max (0 : ℚ) x = x := max_eq_right h0
      have hmin : min (100 : ℚ) x = x := min_eq_right h1
      rw [hmax, hmin]
      omega
    · have hl : (100 : ℤ) ≤ jsRound x := jsRound_hundred ▸ jsRound_mono h1
      have hmax : max (0 : ℚ) x = x := max_eq_right (by linarith)
      have hmin : min (100 : ℚ) x = 100 := min_eq_left h1
      rw [hmax, hmin, jsRound_hundred]
      omega

theorem calculateSimilarity_nonneg (a b : String) : 0 ≤ Levenshtein.calculateSimilarity a b := by
  rw [Levenshtein.calculateSimilarity]
  split
  · exact le_refl 0
  · split
    · norm_num
    · dsimp only
      split
      · norm_num
      · exact le_max_left 0 _

theorem calculateSimilarity_le_100 (a b : String) : Levenshtein.calculateSimilarity a b ≤ 100 := by
  rw [Levenshtein.calculateSimilarity]
  split
  · norm_num
  · split
    · exact le_refl 100
    · dsimp only
      split
      · exact le_refl 100
      · refine max_le (by norm_num) ?_
        refine le_trans (jsRound_mono ?_) (le_of_eq jsRound_hundred)
        generalize (Levenshtein.levDist _ _ : ℕ) = d
        generalize (max _ _ : ℕ) = m
        by_cases hz : (m : ℚ) = 0
        · rw [hz]
          simp
        · have hmpos : (0 : ℚ) < (m : ℚ) := by
            have h0m : (0 : ℚ) ≤ (m : ℚ) := by positivity
            exact lt_of_le_of_ne h0m (Ne.symm hz)
          have hnum : (m : ℚ) - (d : ℚ) ≤ (m : ℚ) := by
            have h0d : (0 : ℚ) ≤ (d : ℚ) := by positivity
            linarith
          have hdiv : ((m : ℚ) - (d : ℚ)) / (m : ℚ) ≤ 1 :=
            (div_le_one hmpos).mpr hnum
          calc ((m : ℚ) - (d : ℚ)) / (m : ℚ) * 100 ≤ 1 * 100 :=
                mul_le_mul_of_nonneg_right hdiv (by norm_num)
            _ = 100 := by norm_num

theorem bestAliasLoop_bounds (q : String) :
    ∀ (l : List String) (best : ℤ), 0 ≤ best → best ≤ 100 →
      0 ≤ bestAliasLoop q best l ∧ bestAliasLoop q best l ≤ 100 := by
  intro l
  induction l with
  | nil => intro best h0 h1; exact ⟨h0, h1⟩
  | cons al rest ih =>
    intro best h0 h1
    rw [bestAliasLoop]
    split
    · exact ⟨by norm_num, le_refl 100⟩
    · exact ih _ (le_trans h0 (le_max_left _ _))
        (max_le h1 (calculateSimilarity_le_100 q al))

/-! ## Claim theorems -/

/-- C10: for every query, target name, alias list and `MatchConfig` —
    including configurations whose weights lie outside `[0, 1]` — all four
    fields of the `ConfidenceBreakdown` returned by `calculateConfidence`
    lie in `[0, 100]`; `weighted` is explicitly clamped, so an oversized
    weight can never push it above 100. -/
theorem calculateConfidence_fields_in_range (query targetName : String)
    (aliases : List String) (config : MatchConfig) :
    let b := calculateConfidence query targetName aliases config
    (0 ≤ b.exactMatch ∧ b.exactMatch ≤ 100) ∧
    (0 ≤ b.fuzzyMatch ∧ b.fuzzyMatch ≤ 100) ∧
    (0 ≤ b.aliasMatch ∧ b.aliasMatch ≤ 100) ∧
    (0 ≤ b.weighted ∧ b.weighted ≤ 100) := by
  intro b
  have hw : ∀ (pre : ConfidenceBreakdown),
      0 ≤ calculateWeightedScore pre config ∧ calculateWeightedScore pre config ≤ 100 := by
    intro pre
    rw [calculateWeightedScore]
    exact ⟨le_min (by norm_num) (le_max_left 0 _), min_le_left _ _⟩
  show (0 ≤ b.exactMatch ∧ b.exactMatch ≤ 100) ∧ _
  rw [show b = calculateConfidence query targetName aliases config from rfl,
    calculateConfidence]
  split
  · norm_num
  · dsimp only
    refine ⟨?_, ?_, ?_, hw _⟩
    · split <;> norm_num
    · exact ⟨calculateSimilarity_nonneg _ _, calculateSimilarity_le_100 _ _⟩
    · split
      · exact bestAliasLoop_bounds query aliases 0 (le_refl 0) (by norm_num)
      · norm_num

/-- C1: the `weighted` field equals `round(clamp(s * w, 0, 100))` where
    `(s, w)` is the single highest-priority nonzero sub-score and its weight
    (exact, then alias, then fuzzy) — never a sum or blend of the three. -/
theorem calculateConfidence_weighted_priority (query targetName : String)
    (aliases : List String) (config : MatchConfig) :
    let b := calculateConfidence query targetName aliases config
    b.weighted =
      jsRound (min 100 (max 0
        (if 0 < b.exactMatch then (b.exactMatch : ℚ) * config.exactMatchWeight
         else if 0 < b.aliasMatch then (b.aliasMatch : ℚ) * config.aliasMatchWeight
         else (b.fuzzyMatch : ℚ) * config.fuzzyMatchWeight))) := by
  intro b
  have hscore : ∀ pre : ConfidenceBreakdown,
      calculateWeightedScore pre config =
        jsRound (min 100 (max 0
          (if 0 < pre.exactMatch then (pre.exactMatch : ℚ) * config.exactMatchWeight
           else if 0 < pre.aliasMatch then (pre.aliasMatch : ℚ) * config.aliasMatchWeight
           else (pre.fuzzyMatch : ℚ) * config.fuzzyMatchWeight))) := by
    intro pre
    rw [calculateWeightedScore]
    split
    · exact clamp_jsRound_comm _
    · split
      · exact clamp_jsRound_comm _
      · exact clamp_jsRound_comm _
  show b.weighted = _
  rw [show b = calculateConfidence query targetName aliases config from rfl,
    calculateConfidence]
  split
  · norm_num [jsRound_zero]
  · dsimp only
    exact hscore _

/-- C4 counterexample: the Similarity Engine's `calculateSimilarity`
    (`levenshtein.ts`, the function used by the confidence scorer) returns 0,
    not 100, when both inputs are empty — the falsiness guard fires before
    the "identical" rule, refuting `similarity(s, s) = 100` at `s = ""` and
    the "both empty ⇒ 100" clause for this function. -/
theorem calculateSimilarity_empty_empty_ne_100 :
    Levenshtein.calculateSimilarity "" "" = 0 ∧
      Levenshtein.calculateSimilarity "" "" ≠ 100 := by
  constructor <;> decide

/-- C4 (amended): `similarity(s, s) = 100` holds for every non-empty `s` for
    the Similarity Engine (`levenshtein.ts`), and for every `s` (including
    `""`, the "identical rule applied post-normalization") for the
    text-normalizer's `calculateSimilarity`; when both inputs are empty the
    engine returns 0 while the text-normalizer variant returns 100; when the
    first or second input is empty the engine returns 0. -/
theorem similarity_identity_and_empty_rules :
    (∀ s : String, s ≠ "" → Levenshtein.calculateSimilarity s s = 100) ∧
    (∀ s : String, TextNormalizer.calculateSimilarity s s = 100) ∧
    Levenshtein.calculateSimilarity "" "" = 0 ∧
    (∀ s : String, Levenshtein.calculateSimilarity "" s = 0 ∧
      Levenshtein.calculateSimilarity s "" = 0) := by
  refine ⟨?_, ?_, by decide, ?_⟩
  · intro s hs
    rw [Levenshtein.calculateSimilarity, if_neg (by simp [hs]), if_pos rfl]
  · intro s
    rw [TextNormalizer.calculateSimilarity]
    dsimp only
    rw [if_pos rfl]
  · intro s
    constructor
    · rw [Levenshtein.calculateSimilarity, if_pos (Or.inl rfl)]
    · rw [Levenshtein.calculateSimilarity, if_pos (Or.inr rfl)]

/-- C4 witness: the amended identity law applied at the concrete non-empty
    string `"a"`. -/
theorem similarity_identity_witness :
    ("a" : String) ≠ "" ∧ Levenshtein.calculateSimilarity "a" "a" = 100 :=
  ⟨by decide, similarity_identity_and_empty_rules.1 "a" (by decide)⟩

/-- C7: matching `"Beatles"` against the candidate
    `{name: "The Beatles", aliases: ["Beatles", "Fab Four"]}` under the
    default configuration yields `exactMatch = 100` (article stripping makes
    the normalized names equal) and an overall weighted confidence of at
    least 90 (in fact 100). -/
theorem beatles_exact_match_and_confidence :
    (calculateConfidence "Beatles" "The Beatles" ["Beatles", "Fab Four"]
        DEFAULT_MATCH_CONFIG).exactMatch = 100 ∧
    90 ≤ (calculateConfidence "Beatles" "The Beatles" ["Beatles", "Fab Four"]
        DEFAULT_MATCH_CONFIG).weighted := by
  constructor <;> decide

/-- For a non-falsy query, `scoreEntities` is the truncated stable sort of the
    passing candidates (when the entity list is empty both sides are `[]`). -/
theorem scoreEntities_eq_take_sort {T : Type} (name : T → String) (aliases : T → List String)
    {query : String} (entities : List T) (config : MatchConfig) (hq : query ≠ "") :
    scoreEntities name aliases query entities config =
      ((passingScored name aliases query entities config).insertionSort weightGE).take
        config.maxResults := by
  rw [scoreEntities]
  split
  · rename_i h
    rcases h with h | h
    · exact absurd h hq
    · have : entities = [] := List.isEmpty_iff.mp h
      subst this
      simp [passingScored, scoredCandidates]
  · rfl

/-- Every element of `scoreEntities`' output is the scored version of one of
    the input entities. -/
theorem scoreEntities_entity_mem {T : Type} {name : T → String} {aliases : T → List String}
    {query : String} {entities : List T} {config : MatchConfig} {s : Scored T}
    (h : s ∈ scoreEntities name aliases query entities config) : s.entity ∈ entities := by
  rw [scoreEntities] at h
  split at h
  · simp at h
  · have h1 := List.mem_of_mem_take h
    have h2 := (List.mem_insertionSort weightGE).mp h1
    rw [passingScored] at h2
    have h3 := (List.mem_filter.mp h2).1
    rw [scoredCandidates] at h3
    obtain ⟨e, he, rfl⟩ := List.mem_map.mp h3
    exact he

/-- C2 counterexample: with `minConfidence = 0` and `maxResults = 1`, both
    candidates pass the threshold but the returned list (truncated to one
    element) does not contain the scored second candidate — the output does
    not contain *exactly* the passing entities. -/
theorem scoreEntities_exact_membership_false :
    ¬ (∀ e : MatchableArtist,
        e ∈ [(⟨"1", "x", []⟩ : MatchableArtist), ⟨"2", "x", []⟩] →
        meetsConfidenceThreshold
            (calculateConfidence "x" e.name e.aliases ⟨0, 0, 1, 1, 1, 1⟩)
            ⟨0, 0, 1, 1, 1, 1⟩ = true →
        ∃ s ∈ scoreEntities MatchableArtist.name MatchableArtist.aliases "x"
            [(⟨"1", "x", []⟩ : MatchableArtist), ⟨"2", "x", []⟩] ⟨0, 0, 1, 1, 1, 1⟩,
          s.entity = e) := by
  decide

/-- C2 (amended): for every non-empty query, entity list and configuration,
    the `scoreEntities` output (i) contains only entries whose `weighted`
    meets `minConfidence`, (ii) is sorted non-increasingly by `weighted`,
    (iii) has length `min maxResults (number of passing candidates)` — so it
    contains exactly the passing entities only when at most `maxResults`
    pass — (iv) within each tie class of equal `weighted` it keeps a
    prefix of the passing candidates in input (insertion) order, and (v) the
    truncation drops only the lowest-ranked excess: every passing candidate
    that is not returned has `weighted` no greater than that of every
    returned entry. -/
theorem scoreEntities_threshold_sort_truncate {T : Type} (name : T → String)
    (aliases : T → List String) (query : String) (entities : List T)
    (config : MatchConfig) (hq : query ≠ "") :
    (∀ s ∈ scoreEntities name aliases query entities config,
        config.minConfidence ≤ (s.confidence.weighted : ℚ)) ∧
    (scoreEntities name aliases query entities config).Pairwise weightGE ∧
    (scoreEntities name aliases query entities config).length =
      min config.maxResults (passingScored name aliases query entities config).length ∧
    (∀ w : ℤ,
      (scoreEntities name aliases query entities config).filter
          (fun s => decide (s.confidence.weighted = w)) <+:
        (passingScored name aliases query entities config).filter
          (fun s => decide (s.confidence.weighted = w))) ∧
    (∀ x ∈ passingScored name aliases query entities config,
      x ∉ scoreEntities name aliases query entities config →
      ∀ y ∈ scoreEntities name aliases query entities config,
        x.confidence.weighted ≤ y.confidence.weighted) := by
  rw [scoreEntities_eq_take_sort name aliases entities config hq]
  refine ⟨?_, ?_, ?_, ?_, ?_⟩
  · intro s hs
    have h1 := (List.mem_insertionSort weightGE).mp (List.mem_of_mem_take hs)
    have h2 := (List.mem_filter.mp h1).2
    rw [meetsConfidenceThreshold] at h2
    exact of_decide_eq_true h2
  · exact (List.sorted_insertionSort weightGE _).sublist (List.take_sublist _ _)
  · simp [List.length_take, List.length_insertionSort]
  · intro w
    set p : Scored T → Bool := fun s => decide (s.confidence.weighted = w) with hp
    set L := passingScored name aliases query entities config with hL
    have hclass : (L.filter p).Pairwise weightGE := by
      refine List.pairwise_of_forall_mem_list ?_
      intro a ha b hb
      have ha' : a.confidence.weighted = w := of_decide_eq_true (List.mem_filter.mp ha).2
      have hb' : b.confidence.weighted = w := of_decide_eq_true (List.mem_filter.mp hb).2
      show b.confidence.weighted ≤ a.confidence.weighted
      rw [ha', hb']
    have hsub : List.Sublist (L.filter p) (L.insertionSort weightGE) :=
      List.sublist_insertionSort hclass (List.filter_sublist L)
    have hself : (L.filter p).filter p = L.filter p :=
      List.filter_eq_self.mpr fun a ha => (List.mem_filter.mp ha).2
    have hsub2 : List.Sublist (L.filter p) ((L.insertionSort weightGE).filter p) :=
      hself ▸ hsub.filter p
    have hperm : ((L.insertionSort weightGE).filter p).length = (L.filter p).length :=
      ((List.perm_insertionSort weightGE L).filter p).length_eq
    have heq : (L.insertionSort weightGE).filter p = L.filter p :=
      (hsub2.eq_of_length hperm.symm).symm
    have htake : (L.insertionSort weightGE).take config.maxResults <+:
        L.insertionSort weightGE := List.take_prefix _ _
    exact heq ▸ htake.filter p
  · intro x hx hnx y hy
    set s := (passingScored name aliases query entities config).insertionSort weightGE
      with hs
    have hxapp : x ∈ s.take config.maxResults ++ s.drop config.maxResults := by
      rw [List.take_append_drop]
      exact (List.mem_insertionSort weightGE).mpr hx
    have hxd : x ∈ s.drop config.maxResults := by
      rcases List.mem_append.mp hxapp with h | h
      · exact absurd h hnx
      · exact h
    have hpw : List.Pairwise weightGE
        (s.take config.maxResults ++ s.drop config.maxResults) := by
      rw [List.take_append_drop]
      exact List.sorted_insertionSort weightGE _
    exact (List.pairwise_append.mp hpw).2.2 y hy x hxd

/-- C2 witness: the amended theorem instantiated at query `"x"`, a singleton
    candidate list and the default configuration. -/
theorem scoreEntities_threshold_sort_truncate_witness :
    ("x" : String) ≠ "" ∧
    ((∀ s ∈ scoreEntities MatchableArtist.name MatchableArtist.aliases "x"
        [(⟨"1", "x", []⟩ : MatchableArtist)] DEFAULT_MATCH_CONFIG,
        DEFAULT_MATCH_CONFIG.minConfidence ≤ (s.confidence.weighted : ℚ)) ∧
    (scoreEntities MatchableArtist.name MatchableArtist.aliases "x"
        [(⟨"1", "x", []⟩ : MatchableArtist)] DEFAULT_MATCH_CONFIG).Pairwise weightGE ∧
    (scoreEntities MatchableArtist.name MatchableArtist.aliases "x"
        [(⟨"1", "x", []⟩ : MatchableArtist)] DEFAULT_MATCH_CONFIG).length =
      min DEFAULT_MATCH_CONFIG.maxResults
        (passingScored MatchableArtist.name MatchableArtist.aliases "x"
          [(⟨"1", "x", []⟩ : MatchableArtist)] DEFAULT_MATCH_CONFIG).length ∧
    (∀ w : ℤ,
      (scoreEntities MatchableArtist.name MatchableArtist.aliases "x"
          [(⟨"1", "x", []⟩ : MatchableArtist)] DEFAULT_MATCH_CONFIG).filter
          (fun s => decide (s.confidence.weighted = w)) <+:
        (passingScored MatchableArtist.name MatchableArtist.aliases "x"
          [(⟨"1", "x", []⟩ : MatchableArtist)] DEFAULT_MATCH_CONFIG).filter
          (fun s => decide (s.confidence.weighted = w))) ∧
    (∀ x ∈ passingScored MatchableArtist.name MatchableArtist.aliases "x"
        [(⟨"1", "x", []⟩ : MatchableArtist)] DEFAULT_MATCH_CONFIG,
      x ∉ scoreEntities MatchableArtist.name MatchableArtist.aliases "x"
        [(⟨"1", "x", []⟩ : MatchableArtist)] DEFAULT_MATCH_CONFIG →
      ∀ y ∈ scoreEntities MatchableArtist.name MatchableArtist.aliases "x"
        [(⟨"1", "x", []⟩ : MatchableArtist)] DEFAULT_MATCH_CONFIG,
        x.confidence.weighted ≤ y.confidence.weighted)) :=
  ⟨by decide, scoreEntities_threshold_sort_truncate MatchableArtist.name
    MatchableArtist.aliases "x" [⟨"1", "x", []⟩] DEFAULT_MATCH_CONFIG (by decide)⟩

/-- C8: with a non-empty (after trimming) city filter, every venue returned
    by `matchVenues` has a city containing the filter as a case-insensitive
    substring; candidates failing the test are removed before scoring. -/
theorem matchVenues_city_filtered (config : MatchConfig) (query : String)
    (venues : List MatchableVenue) (cf : String) (hcf : jsTrim cf ≠ "") :
    ∀ m ∈ EntityMatcher.matchVenues config query venues (some cf),
      (jsToLowerStr cf).data <:+: (jsToLowerStr m.city).data := by
  intro m hm
  rw [EntityMatcher.matchVenues] at hm
  split at hm
  · simp at hm
  · obtain ⟨s, hs, rfl⟩ := List.mem_map.mp hm
    have he := scoreEntities_entity_mem hs
    have hpred := (List.mem_filter.mp he).2
    rw [jsIncludes] at hpred
    exact of_decide_eq_true hpred

/-- C8 witness: the theorem applied to the filter `"york"` and a venue in
    `"New York"`. -/
theorem matchVenues_city_filtered_witness :
    jsTrim "york" ≠ "" ∧
    ∀ m ∈ EntityMatcher.matchVenues DEFAULT_MATCH_CONFIG "x"
        [(⟨"1", "x", "New York", []⟩ : MatchableVenue)] (some "york"),
      (jsToLowerStr "york").data <:+: (jsToLowerStr m.city).data :=
  ⟨by decide, matchVenues_city_filtered DEFAULT_MATCH_CONFIG "x"
    [⟨"1", "x", "New York", []⟩] "york" (by decide)⟩

/-- C9: `matchArtists` and `matchVenues` (both total Lean functions — there
    is no exception path in the model) return `[]` whenever the query is
    empty or whitespace-only (i.e. trims to `""`), or the candidate list is
    empty, for every configuration and city filter. -/
theorem match_empty_inputs_yield_empty (config : MatchConfig) (query : String)
    (artists : List MatchableArtist) (venues : List MatchableVenue)
    (cf : Option String) :
    (jsTrim query = "" →
      EntityMatcher.matchArtists config query artists = [] ∧
      EntityMatcher.matchVenues config query venues cf = []) ∧
    EntityMatcher.matchArtists config query [] = [] ∧
    EntityMatcher.matchVenues config query [] cf = [] := by
  refine ⟨fun hq => ⟨?_, ?_⟩, ?_, ?_⟩
  · rw [EntityMatcher.matchArtists, if_pos (Or.inl hq)]
  · rw [EntityMatcher.matchVenues.eq_def, if_pos (Or.inl hq)]
  · rw [EntityMatcher.matchArtists, if_pos (Or.inr rfl)]
  · rw [EntityMatcher.matchVenues.eq_def, if_pos (Or.inr rfl)]

/-- C9 witness: the guard applied to the whitespace-only query `"  "` (and
    to empty candidate lists). -/
theorem match_empty_inputs_yield_empty_witness :
    jsTrim "  " = "" ∧
    EntityMatcher.matchArtists DEFAULT_MATCH_CONFIG "  "
      [(⟨"1", "x", []⟩ : MatchableArtist)] = [] ∧
    EntityMatcher.matchVenues DEFAULT_MATCH_CONFIG "  "
      [(⟨"1", "x", "NYC", []⟩ : MatchableVenue)] none = [] :=
  ⟨by decide,
   ((match_empty_inputs_yield_empty DEFAULT_MATCH_CONFIG "  " [⟨"1", "x", []⟩]
      [⟨"1", "x", "NYC", []⟩] none).1 (by decide)).1,
   ((match_empty_inputs_yield_empty DEFAULT_MATCH_CONFIG "  " [⟨"1", "x", []⟩]
      [⟨"1", "x", "NYC", []⟩] none).1 (by decide)).2⟩

/-! ## Cache lemmas -/

theorem mapGet_replace {κ T : Type} [DecidableEq κ] (l : List (κ × CacheEntry T))
    (key : κ) (e : CacheEntry T) (hc : mapContains l key = true) :
    mapGet (l.map fun p => if p.1 = key then (key, e) else p) key = some e := by
  induction l with
  | nil => simp [mapContains, mapGet] at hc
  | cons p t ih =>
    by_cases hp : p.1 = key
    · simp [mapGet, List.find?, hp]
    · have hc' : mapContains t key = true := by
        simpa [mapContains, mapGet, List.find?, hp] using hc
      simpa [mapGet, List.find?, hp] using ih hc'

theorem mapGet_append_absent {κ T : Type} [DecidableEq κ] (l : List (κ × CacheEntry T))
    (key : κ) (e : CacheEntry T) (hc : mapGet l key = none) :
    mapGet (l ++ [(key, e)]) key = some e := by
  induction l with
  | nil => simp [mapGet, List.find?]
  | cons p t ih =>
    by_cases hp : p.1 = key
    · simp [mapGet, List.find?, hp] at hc
    · have hc' : mapGet t key = none := by
        simpa [mapGet, List.find?, hp] using hc
      simpa [mapGet, List.find?, hp] using ih hc'

/-- `Map.set` followed by `Map.get` on the same key yields the new entry. -/
theorem mapGet_mapSet_self {κ T : Type} [DecidableEq κ] (l : List (κ × CacheEntry T))
    (key : κ) (e : CacheEntry T) : mapGet (mapSet l key e) key = some e := by
  rw [mapSet]
  by_cases hc : mapContains l key
  · rw [if_pos hc]
    exact mapGet_replace l key e hc
  · rw [if_neg hc]
    refine mapGet_append_absent l key e ?_
    rw [mapContains] at hc
    exact Option.not_isSome_iff_eq_none.mp hc

/-- After `LRUCache.set` the stored entry for that key is exactly the fresh
    entry, whatever the prior state (the in-place update, the append and the
    append-after-eviction branches all go through `mapSet`). -/
theorem lrucache_get_after_set {κ T : Type} [DecidableEq κ] [JsKey κ]
    (c : LRUCache κ T) (now : ℤ) (key : κ) (value : T) (ttl : Option ℤ) :
    mapGet (c.set now key value ttl).cache key =
      some { value := value, timestamp := now,
             expiresAt := if ttl.getD c.config.defaultTTL > 0
               then some (now + ttl.getD c.config.defaultTTL) else none,
             accessCount := 1 } := by
  rw [LRUCache.set]
  dsimp only
  split
  · exact mapGet_mapSet_self _ _ _
  · exact mapGet_mapSet_self _ _ _

/-- C5: a cache entry stored with per-entry TTL `t > 0` is a miss for both
    `get` and `has` as soon as strictly more than `t` milliseconds have
    elapsed since the `set`; an entry stored with per-entry TTL `0` never
    expires, whatever the cache-wide `defaultTTL` and however much time
    passes. -/
theorem lrucache_ttl_expiry_and_zero_ttl {T : Type} (c : LRUCache String T) (k : String)
    (v : T) (t now0 now : ℤ) :
    (0 < t → now0 + t < now →
      ((c.set now0 k v (some t)).get now k).1 = none ∧
      ((c.set now0 k v (some t)).has now k).1 = false) ∧
    ((c.set now0 k v (some 0)).get now k).1 = some v := by
  constructor
  · intro ht hnow
    have hget := lrucache_get_after_set c now0 k v (some t)
    rw [Option.getD] at hget
    rw [if_pos ht] at hget
    have hexp : LRUCache.isExpired now
        { value := v, timestamp := now0, expiresAt := some (now0 + t),
          accessCount := 1 } = true := by
      rw [LRUCache.isExpired]
      exact decide_eq_true hnow
    constructor
    · rw [LRUCache.get, hget]
      simp [hexp]
    · rw [LRUCache.has, hget]
      simp [hexp]
  · have hget := lrucache_get_after_set c now0 k v (some 0)
    rw [Option.getD] at hget
    rw [if_neg (by norm_num)] at hget
    have hexp : LRUCache.isExpired now
        { value := v, timestamp := now0, expiresAt := none,
          accessCount := (1 : ℕ) } = false := by
      rw [LRUCache.isExpired]
    rw [LRUCache.get, hget]
    simp [hexp]

/-- C5 witness: the TTL law at a concrete cache (`maxSize 1000`, default TTL
    300000 ms), key `"k"`, value `7`, per-entry TTL `50`, set at time 0 and
    read at time 51. -/
theorem lrucache_ttl_witness :
    ((0 : ℤ) < 50 ∧ (0 : ℤ) + 50 < 51) ∧
    ((((LRUCache.init (κ := String) (T := ℕ) DEFAULT_LRU_CONFIG).set 0 "k" 7
        (some 50)).get 51 "k").1 = none ∧
      (((LRUCache.init (κ := String) (T := ℕ) DEFAULT_LRU_CONFIG).set 0 "k" 7
        (some 50)).has 51 "k").1 = false) ∧
    (((LRUCache.init (κ := String) (T := ℕ) DEFAULT_LRU_CONFIG).set 0 "k" 7
        (some 0)).get 51 "k").1 = some 7 :=
  ⟨⟨by decide, by decide⟩,
   (lrucache_ttl_expiry_and_zero_ttl (LRUCache.init DEFAULT_LRU_CONFIG) "k" 7 50 0 51).1
     (by decide) (by decide),
   (lrucache_ttl_expiry_and_zero_ttl (LRUCache.init DEFAULT_LRU_CONFIG) "k" 7 50 0 51).2⟩

/-- C3 (code bug): on a cache of capacity 1 holding only the key `""`,
    inserting a second distinct key triggers `evictLRU`, but its JS
    truthiness guard `if (lruKey)` is false for the empty-string key, so
    *nothing* is evicted and the cache grows to 2 entries — while with the
    nonempty keys `"a"`, `"b"` exactly one eviction occurs and it removes the
    first-inserted key, as the claim states. -/
theorem lrucache_empty_string_key_breaks_eviction :
    ((((LRUCache.init (κ := String) (T := ℕ) ⟨1, 0, 0, true⟩).set 0 "" 10 none).set 1 "a"
        20 none).metrics.evictions = 0 ∧
      (((LRUCache.init (κ := String) (T := ℕ) ⟨1, 0, 0, true⟩).set 0 "" 10 none).set 1 "a"
        20 none).cache.length = 2) ∧
    ((((LRUCache.init (κ := String) (T := ℕ) ⟨1, 0, 0, true⟩).set 0 "a" 10 none).set 1 "b"
        20 none).metrics.evictions = 1 ∧
      ((((LRUCache.init (κ := String) (T := ℕ) ⟨1, 0, 0, true⟩).set 0 "a" 10 none).set 1 "b"
        20 none).cache.map Prod.fst) = ["b"]) := by
  refine ⟨⟨?_, ?_⟩, ?_, ?_⟩ <;> decide

theorem lrucache_get_init {κ T : Type} [DecidableEq κ] [JsKey κ] (cfg : LRUCacheConfig)
    (now : ℤ) (key : κ) :
    ((LRUCache.init (T := T) cfg).get now key) =
      (none, LRUCache.recordMiss (LRUCache.init cfg)) := rfl

/-- `set` with no per-entry TTL followed by `get` on the same key within the
    cache's positive default TTL is a hit returning the stored value. -/
theorem lrucache_get_set_hit {κ T : Type} [DecidableEq κ] [JsKey κ] (c : LRUCache κ T)
    (now1 now2 : ℤ) (key : κ) (value : T) (hTTL : 0 < c.config.defaultTTL)
    (h2 : now2 ≤ now1 + c.config.defaultTTL) :
    ((c.set now1 key value none).get now2 key).1 = some value := by
  have hget := lrucache_get_after_set c now1 key value none
  rw [Option.getD] at hget
  rw [if_pos hTTL] at hget
  have hexp : LRUCache.isExpired now2
      { value := value, timestamp := now1, expiresAt := some (now1 + c.config.defaultTTL),
        accessCount := (1 : ℕ) } = false := by
    rw [LRUCache.isExpired]
    exact decide_eq_false (not_lt.mpr h2)
  rw [LRUCache.get, hget]
  simp [hexp]

theorem cached_artists_first_and_repeat (mcfg : MatchConfig) (q : String)
    (artists : List MatchableArtist) (now1 now2 : ℤ) (h2 : now2 ≤ now1 + 600000) :
    (((CachedEntityMatcher.init mcfg DEFAULT_MATCHER_CACHE_CONFIG).matchArtists now1 q
        artists).1 = EntityMatcher.matchArtists mcfg q artists) ∧
    ((((CachedEntityMatcher.init mcfg DEFAULT_MATCHER_CACHE_CONFIG).matchArtists now1 q
        artists).2.matchArtists now2 q artists).1 =
      EntityMatcher.matchArtists mcfg q artists) := by
  by_cases hg : jsTrim q = "" ∨ artists = []
  · have eu : EntityMatcher.matchArtists mcfg q artists = [] := by
      rw [EntityMatcher.matchArtists, if_pos hg]
    have e1 : ((CachedEntityMatcher.init mcfg
        DEFAULT_MATCHER_CACHE_CONFIG).matchArtists now1 q artists) =
        ([], CachedEntityMatcher.init mcfg DEFAULT_MATCHER_CACHE_CONFIG) := by
      rw [CachedEntityMatcher.matchArtists, if_pos hg]
    rw [e1, eu]
    constructor
    · rfl
    · rw [show (([], CachedEntityMatcher.init mcfg DEFAULT_MATCHER_CACHE_CONFIG) :
          List ArtistMatch × CachedEntityMatcher).2 =
          CachedEntityMatcher.init mcfg DEFAULT_MATCHER_CACHE_CONFIG from rfl,
        CachedEntityMatcher.matchArtists, if_pos hg]
  · have hlook : (((MatcherCache.init DEFAULT_MATCHER_CACHE_CONFIG).getArtistMatches now1 q
        mcfg)).1 = none := rfl
    rw [CachedEntityMatcher.matchArtists, if_neg hg]
    dsimp only [CachedEntityMatcher.init]
    rw [hlook]
    dsimp only
    refine ⟨rfl, ?_⟩
    rw [CachedEntityMatcher.matchArtists, if_neg hg]
    dsimp only
    have hhit : ∀ mc : MatcherCache, 0 < mc.artistCache.config.defaultTTL →
        now2 ≤ now1 + mc.artistCache.config.defaultTTL →
        ((mc.setArtistMatches now1 q mcfg
            (EntityMatcher.matchArtists mcfg q artists)).getArtistMatches now2 q mcfg).1 =
          some (EntityMatcher.matchArtists mcfg q artists) := by
      intro mc hT hle
      rw [MatcherCache.setArtistMatches, MatcherCache.getArtistMatches]
      dsimp only
      exact lrucache_get_set_hit _ now1 now2 _ _ hT hle
    rw [hhit (((MatcherCache.init DEFAULT_MATCHER_CACHE_CONFIG).getArtistMatches now1 q
        mcfg)).2 (show (0 : ℤ) < 600000 by norm_num) (show now2 ≤ now1 + 600000 from h2)]

theorem cached_venues_first_and_repeat (mcfg : MatchConfig) (q : String)
    (venues : List MatchableVenue) (cf : Option String) (now1 now2 : ℤ)
    (h2 : now2 ≤ now1 + 300000) :
    (((CachedEntityMatcher.init mcfg DEFAULT_MATCHER_CACHE_CONFIG).matchVenues now1 q
        venues cf).1 = EntityMatcher.matchVenues mcfg q venues cf) ∧
    ((((CachedEntityMatcher.init mcfg DEFAULT_MATCHER_CACHE_CONFIG).matchVenues now1 q
        venues cf).2.matchVenues now2 q venues cf).1 =
      EntityMatcher.matchVenues mcfg q venues cf) := by
  by_cases hg : jsTrim q = "" ∨ venues = []
  · have eu : EntityMatcher.matchVenues mcfg q venues cf = [] := by
      rw [EntityMatcher.matchVenues.eq_def, if_pos hg]
    have e1 : ((CachedEntityMatcher.init mcfg
        DEFAULT_MATCHER_CACHE_CONFIG).matchVenues now1 q venues cf) =
        ([], CachedEntityMatcher.init mcfg DEFAULT_MATCHER_CACHE_CONFIG) := by
      rw [CachedEntityMatcher.matchVenues, if_pos hg]
    rw [e1, eu]
    constructor
    · rfl
    · rw [show (([], CachedEntityMatcher.init mcfg DEFAULT_MATCHER_CACHE_CONFIG) :
          List VenueMatch × CachedEntityMatcher).2 =
          CachedEntityMatcher.init mcfg DEFAULT_MATCHER_CACHE_CONFIG from rfl,
        CachedEntityMatcher.matchVenues, if_pos hg]
  · have hlook : (((MatcherCache.init DEFAULT_MATCHER_CACHE_CONFIG).getVenueMatches now1 q
        mcfg cf)).1 = none := rfl
    rw [CachedEntityMatcher.matchVenues, if_neg hg]
    dsimp only [CachedEntityMatcher.init]
    rw [hlook]
    dsimp only
    refine ⟨rfl, ?_⟩
    rw [CachedEntityMatcher.matchVenues, if_neg hg]
    dsimp only
    have hhit : ∀ mc : MatcherCache, 0 < mc.venueCache.config.defaultTTL →
        now2 ≤ now1 + mc.venueCache.config.defaultTTL →
        ((mc.setVenueMatches now1 q mcfg
            (EntityMatcher.matchVenues mcfg q venues cf) cf).getVenueMatches now2 q mcfg
            cf).1 = some (EntityMatcher.matchVenues mcfg q venues cf) := by
      intro mc hT hle
      rw [MatcherCache.setVenueMatches, MatcherCache.getVenueMatches]
      dsimp only
      exact lrucache_get_set_hit _ now1 now2 _ _ hT hle
    rw [hhit (((MatcherCache.init DEFAULT_MATCHER_CACHE_CONFIG).getVenueMatches now1 q
        mcfg cf)).2 (show (0 : ℤ) < 300000 by norm_num) (show now2 ≤ now1 + 300000 from h2)]

/-- C6: starting from a freshly constructed (empty) cache with the default
    cache configuration, `CachedEntityMatcher.matchArtists` (resp.
    `matchVenues` with any city filter) returns exactly the uncached
    `EntityMatcher` result with the same `MatchConfig`, both on the first
    (computed, then cached) call and on an identical repeated call served
    from the cache — the repetition happening within the partition's TTL
    (600 s for artists, 300 s for venues; an immediate repeat trivially
    satisfies both bounds). -/
theorem cached_matcher_transparent (mcfg : MatchConfig) (q : String)
    (artists : List MatchableArtist) (venues : List MatchableVenue)
    (cf : Option String) (now1 now2 : ℤ)
    (hA : now2 ≤ now1 + 600000) (hV : now2 ≤ now1 + 300000) :
    (((CachedEntityMatcher.init mcfg DEFAULT_MATCHER_CACHE_CONFIG).matchArtists now1 q
        artists).1 = EntityMatcher.matchArtists mcfg q artists) ∧
    ((((CachedEntityMatcher.init mcfg DEFAULT_MATCHER_CACHE_CONFIG).matchArtists now1 q
        artists).2.matchArtists now2 q artists).1 =
      EntityMatcher.matchArtists mcfg q artists) ∧
    (((CachedEntityMatcher.init mcfg DEFAULT_MATCHER_CACHE_CONFIG).matchVenues now1 q
        venues cf).1 = EntityMatcher.matchVenues mcfg q venues cf) ∧
    ((((CachedEntityMatcher.init mcfg DEFAULT_MATCHER_CACHE_CONFIG).matchVenues now1 q
        venues cf).2.matchVenues now2 q venues cf).1 =
      EntityMatcher.matchVenues mcfg q venues cf) :=
  ⟨(cached_artists_first_and_repeat mcfg q artists now1 now2 hA).1,
   (cached_artists_first_and_repeat mcfg q artists now1 now2 hA).2,
   (cached_venues_first_and_repeat mcfg q venues cf now1 now2 hV).1,
   (cached_venues_first_and_repeat mcfg q venues cf now1 now2 hV).2⟩

/-- C6 witness: the transparency law at the default configuration, query
    `"x"`, a one-artist and a one-venue candidate list with city filter
    `"ny"`, both calls at time 0. -/
theorem cached_matcher_transparent_witness :
    ((0 : ℤ) ≤ 0 + 600000 ∧ (0 : ℤ) ≤ 0 + 300000) ∧
    (((CachedEntityMatcher.init DEFAULT_MATCH_CONFIG
        DEFAULT_MATCHER_CACHE_CONFIG).matchArtists 0 "x"
        [(⟨"1", "x", []⟩ : MatchableArtist)]).1 =
      EntityMatcher.matchArtists DEFAULT_MATCH_CONFIG "x" [⟨"1", "x", []⟩]) ∧
    ((((CachedEntityMatcher.init DEFAULT_MATCH_CONFIG
        DEFAULT_MATCHER_CACHE_CONFIG).matchArtists 0 "x"
        [(⟨"1", "x", []⟩ : MatchableArtist)]).2.matchArtists 0 "x"
        [(⟨"1", "x", []⟩ : MatchableArtist)]).1 =
      EntityMatcher.matchArtists DEFAULT_MATCH_CONFIG "x" [⟨"1", "x", []⟩]) ∧
    (((CachedEntityMatcher.init DEFAULT_MATCH_CONFIG
        DEFAULT_MATCHER_CACHE_CONFIG).matchVenues 0 "x"
        [(⟨"1", "x", "NYC", []⟩ : MatchableVenue)] (some "ny")).1 =
      EntityMatcher.matchVenues DEFAULT_MATCH_CONFIG "x" [⟨"1", "x", "NYC", []⟩]
        (some "ny")) ∧
    ((((CachedEntityMatcher.init DEFAULT_MATCH_CONFIG
        DEFAULT_MATCHER_CACHE_CONFIG).matchVenues 0 "x"
        [(⟨"1", "x", "NYC", []⟩ : MatchableVenue)] (some "ny")).2.matchVenues 0 "x"
        [(⟨"1", "x", "NYC", []⟩ : MatchableVenue)] (some "ny")).1 =
      EntityMatcher.matchVenues DEFAULT_MATCH_CONFIG "x" [⟨"1", "x", "NYC", []⟩]
        (some "ny")) :=
  ⟨⟨by decide, by decide⟩,
   cached_matcher_transparent DEFAULT_MATCH_CONFIG "x" [⟨"1", "x", []⟩]
     [⟨"1", "x", "NYC", []⟩] (some "ny") 0 0 (by decide) (by decide)⟩
